import Mathlib

/-!
Shallow embedding of the Reditor block-editor core.

JavaScript object identity is modelled with an explicit heap: block records
live at natural-number addresses (`heap : Nat → BlockData`), the controller's
`blocks` array is a list of addresses (`elems`) together with an address of
its own (`arrAddr`, the array object's identity).  An operation that mutates a
record in place updates `heap` at the record's address and keeps `elems`
unchanged; an operation that builds a new array (JS `map`, `filter`, spread)
returns a fresh `arrAddr` drawn from the allocation counter `nextAddr`.

React's behaviour around `setBlocks` is part of the source's observable
contract and is embedded explicitly: `setBlocks(fn)` bails out when `fn(prev)`
is the very same array object (`Object.is`), otherwise the component
re-renders and the `useEffect` with dependency `[blocks, onBlocksChange]`
fires, invoking `onBlocksChange`.  `publishCount` counts those invocations.
-/

namespace Reditor

/-- Block record from `src/types/block.ts`: `id`, `content`, `type`.  The
`type` field is a string tag (`paragraph`, `h1`, `h2`, `h3`). -/
structure BlockData where
  id : String
  content : String
  type : String
  deriving DecidableEq, Repr

/-- State of `MultiBlockEditorComponent`: the heap of block records, the
current `blocks` array (its identity `arrAddr` and its contents `elems`, a
list of record addresses), the allocation counter, and the number of
`onBlocksChange` notifications delivered so far. -/
structure EditorState where
  heap : Nat → BlockData
  arrAddr : Nat
  elems : List Nat
  nextAddr : Nat
  publishCount : Nat

/-- The ids of the blocks currently in the collection, in order. -/
def ids (s : EditorState) : List String :=
  s.elems.map fun b => (s.heap b).id

/-- Well-formed allocation: every live address is below the allocation
counter. -/
def EditorState.WF (s : EditorState) : Prop :=
  (∀ b ∈ s.elems, b < s.nextAddr) ∧ s.arrAddr < s.nextAddr

instance (s : EditorState) : Decidable s.WF := by
  unfold EditorState.WF; infer_instance

/-- Mount of the editor with a host-supplied `initialBlocks` list (the JS
default value only applies when the prop is `undefined`, so a supplied list
is taken as is).  Records are laid out at addresses `0..n-1`, the array at
`n`.  The publish `useEffect` runs once after mount, hence `publishCount = 1`. -/
def initEditor (initialBlocks : List BlockData) : EditorState :=
  { heap := fun b => (initialBlocks.getD b ⟨"", "", "paragraph"⟩)
    arrAddr := initialBlocks.length
    elems := List.range initialBlocks.length
    nextAddr := initialBlocks.length + 1
    publishCount := 1 }

/-- `handleContentChange` from `MultiBlockEditor.tsx`: `prevBlocks.map` visits
every record of the array, assigns `block.content = content` in place on the
records whose `id` matches, and returns the records in a **new** array.  The
new array is a different object from `prevBlocks`, so React re-renders and the
publish effect fires unconditionally. -/
def handleContentChange (s : EditorState) (blockId content : String) : EditorState :=
  { s with
    heap := fun b =>
      if b ∈ s.elems ∧ (s.heap b).id = blockId
      then { s.heap b with content := content }
      else s.heap b
    arrAddr := s.nextAddr
    nextAddr := s.nextAddr + 1
    publishCount := s.publishCount + 1 }

/-- JS `Array.prototype.findIndex`: index of the first match, `-1` when no
element matches. -/
def findIndexJS {α : Type} (p : α → Bool) (l : List α) : Int :=
  match l.findIdx? p with
  | some i => (i : Int)
  | none => -1

/-- `handleEnterPress` from `src/unnamed/part_006`: allocates a fresh block
record (`createBlock()`, empty content, type `paragraph`, generated id — the
generator's output is the `newId` parameter), finds the index of `blockId`
with `findIndex`, and builds
`[...prev.slice(0, blockIndex + 1), newBlock, ...prev.slice(blockIndex + 1)]`.
With `findIndex` returning `-1`, both slice bounds are `0`, so the new block
lands at the front.  The spread always allocates a new array, so a publish
follows. -/
def handleEnterPress (s : EditorState) (blockId newId : String) : EditorState :=
  let newAddr := s.nextAddr
  let blockIndex := findIndexJS (fun b => (s.heap b).id == blockId) s.elems
  let cut := (blockIndex + 1).toNat
  { heap := fun b => if b = newAddr then ⟨newId, "", "paragraph"⟩ else s.heap b
    arrAddr := s.nextAddr + 1
    elems := s.elems.take cut ++ newAddr :: s.elems.drop cut
    nextAddr := s.nextAddr + 2
    publishCount := s.publishCount + 1 }

/-- `handleDeleteBlock` from `MultiBlockEditor.tsx`: when the collection has
at most one block the updater returns `prevBlocks` itself (the same array
object, so React bails out and no publish happens); otherwise it filters out
the records whose id equals `blockId` into a new array and a publish
follows. -/
def handleDeleteBlock (s : EditorState) (blockId : String) : EditorState :=
  if s.elems.length ≤ 1 then s
  else
    { s with
      elems := s.elems.filter fun b => (s.heap b).id != blockId
      arrAddr := s.nextAddr
      nextAddr := s.nextAddr + 1
      publishCount := s.publishCount + 1 }

/-- Modelled from the spec: the repository declares the type-change callback
(`onTypeChange` in `BaseBlockProps`, `src/types/blockComponent.ts`) and a
`BlockTypeSelector` that forwards it, but contains no controller
implementation of `changeType`.  Per the spec (§4.1): "updates the block's
type field in place (same identity-preservation rule as content), publishes
the updated collection", content "retained verbatim across a type change". -/
def changeType (s : EditorState) (blockId newType : String) : EditorState :=
  { s with
    heap := fun b =>
      if b ∈ s.elems ∧ (s.heap b).id = blockId
      then { s.heap b with type := newType }
      else s.heap b
    arrAddr := s.nextAddr
    nextAddr := s.nextAddr + 1
    publishCount := s.publishCount + 1 }

/-- Registry entry from `src/types/blockComponent.ts` (`BlockRegistryItem`);
the view implementation is identified by its exported name. -/
structure BlockRegistryItem where
  component : String
  displayName : String
  defaultContent : String
  deriving DecidableEq, Repr

/-- The `paragraph` entry of `blockRegistry` (`src/unnamed/part_005`). -/
def paragraphItem : BlockRegistryItem := ⟨"ParagraphBlock", "段落", ""⟩

/-- `blockRegistry` from `src/unnamed/part_005`, as a lookup from the type
tag; a tag that is not a key of the record object yields `undefined`
(`none`). -/
def blockRegistry : String → Option BlockRegistryItem
  | "paragraph" => some paragraphItem
  | "h1" => some ⟨"H1Block", "标题 1", ""⟩
  | "h2" => some ⟨"H2Block", "标题 2", ""⟩
  | "h3" => some ⟨"H3Block", "标题 3", ""⟩
  | _ => none

/-- `BlockFactoryComponent` from `BlockFactory.tsx`:
`blockRegistry[blockType] || blockRegistry.paragraph` — the registered entry
when present, the paragraph entry otherwise. -/
def BlockFactoryComponent (blockType : String) : BlockRegistryItem :=
  match blockRegistry blockType with
  | some item => item
  | none => paragraphItem

/-!
Focus coordinator: `useFocusNewItem` (`src/unnamed/part_009`).

`newItemId` is the hook's state, `""` its initial (idle) value.  `refs` is
the contents of the `blockRefs` map (ids under which a view handle is
registered); the map lives in a `useRef`, so writing to it never causes a
render.  `focusCalls` logs every `focus()` invocation by target id.
`effectPending` embeds React's dependency tracking for the hook's
`useEffect([newItemId, refsMap])`: it is set exactly when `setNewItemId` is
called with a value different from the current one (React bails out on an
`Object.is`-equal value), and the effect body runs at the next flush only if
it is set.
-/
structure FocusState where
  newItemId : String
  refs : List String
  focusCalls : List String
  effectPending : Bool

/-- The body of the hook's `useEffect`: when an id is pending and a handle is
registered under it, call `focus()` on that handle and clear the pending id;
otherwise do nothing (the pending id stays stored). -/
def runFocusEffect (s : FocusState) : FocusState :=
  if s.newItemId ≠ "" ∧ s.newItemId ∈ s.refs
  then { s with focusCalls := s.focusCalls ++ [s.newItemId], newItemId := "" }
  else s

/-- Events acting on the coordinator: `arm` is `focusNewItem(id)` (a
`setNewItemId`), `mount`/`unmount` are the ref callback registering or
removing a handle (no render, no effect), `flush` is React running pending
effects after a committed render. -/
inductive FocusEvent where
  | arm (id : String)
  | mount (id : String)
  | unmount (id : String)
  | flush
  deriving DecidableEq, Repr

/-- One step of the coordinator.  `arm` with the currently stored value is a
bail-out (`Object.is` equal state, no re-render, effect not re-triggered);
`arm` with a different value stores it and schedules the effect.  A `flush`
runs the effect body once when scheduled; the body's own `setNewItemId("")`
re-triggers a run that is a no-op (`""` fails the guard), so a single run is
observationally exact. -/
def focusStep (s : FocusState) : FocusEvent → FocusState
  | .arm id =>
      if id = s.newItemId then s
      else { s with newItemId := id, effectPending := true }
  | .mount id => { s with refs := id :: s.refs }
  | .unmount id => { s with refs := s.refs.erase id }
  | .flush =>
      if s.effectPending
      then { runFocusEffect s with effectPending := false }
      else s

/-- Run a sequence of coordinator events. -/
def focusRun (s : FocusState) (es : List FocusEvent) : FocusState :=
  es.foldl focusStep s

/-! Concrete states used by counterexamples and witnesses. -/

/-- A one-block collection: block `"a"` with content `"Hello"` at address 0. -/
def wState1 : EditorState :=
  { heap := fun b => if b = 0 then ⟨"a", "Hello", "paragraph"⟩ else ⟨"", "", "paragraph"⟩
    arrAddr := 1
    elems := [0]
    nextAddr := 2
    publishCount := 1 }

/-- A two-block collection: `"a"` at address 0, `"b"` at address 1. -/
def wState2 : EditorState :=
  { heap := fun b =>
      if b = 0 then ⟨"a", "A", "paragraph"⟩
      else if b = 1 then ⟨"b", "B", "paragraph"⟩
      else ⟨"", "", "paragraph"⟩
    arrAddr := 2
    elems := [0, 1]
    nextAddr := 3
    publishCount := 1 }

/-- An idle focus coordinator with nothing registered. -/
def wFocus0 : FocusState :=
  { newItemId := "", refs := [], focusCalls := [], effectPending := false }

/-- Structure eta: replacing `content` with itself leaves the record as is. -/
theorem BlockData.content_eta (r : BlockData) : { r with content := r.content } = r := rfl

/-- C1: a content-change event whose new content differs from the current one
mutates the targeted record in place — its `id` is preserved and the element
list (hence every record reference, the targeted one included) is unchanged —
and every record whose id differs from the target is not touched at all. -/
theorem c1_identity_preservation (s : EditorState) (blockId newContent : String)
    (a : Nat) (ha : a ∈ s.elems) (hid : (s.heap a).id = blockId)
    (hdiff : newContent ≠ (s.heap a).content) :
    ((handleContentChange s blockId newContent).heap a).id = (s.heap a).id ∧
    ((handleContentChange s blockId newContent).heap a).content = newContent ∧
    (handleContentChange s blockId newContent).elems = s.elems ∧
    ∀ b ∈ s.elems, (s.heap b).id ≠ blockId →
      (handleContentChange s blockId newContent).heap b = s.heap b := by
  refine ⟨?_, ?_, rfl, ?_⟩
  · simp [handleContentChange, ha, hid]
  · simp [handleContentChange, ha, hid]
  · intro b hb hne
    simp [handleContentChange, hne]

/-- Witness for C1 at a concrete one-block state. -/
theorem c1_witness :
    ((handleContentChange wState1 "a" "Hello World").heap 0).id = (wState1.heap 0).id ∧
    (handleContentChange wState1 "a" "Hello World").elems = wState1.elems :=
  ⟨(c1_identity_preservation wState1 "a" "Hello World" 0 (by decide) (by decide)
      (by decide)).1,
   (c1_identity_preservation wState1 "a" "Hello World" 0 (by decide) (by decide)
      (by decide)).2.2.1⟩

/-- C2 counterexample: on the one-block state whose block `"a"` already holds
content `"Hello"`, `setContent("a", "Hello")` does **not** return a
reference-equal collection with no publish: `map` allocates a fresh array and
the publish effect fires. -/
theorem c2_counterexample :
    ¬ ((handleContentChange wState1 "a" "Hello").arrAddr = wState1.arrAddr ∧
       (handleContentChange wState1 "a" "Hello").publishCount
         = wState1.publishCount) := by
  decide

/-- C2 amended: `setContent` with content every matching block already holds
mutates no record (the heap and the element list are unchanged, so every block
record keeps its reference), but the updater still builds a fresh array — the
resulting collection is **not** reference-equal to the previous one — and one
publish notification is delivered. -/
theorem c2_amended_noop_content (s : EditorState) (blockId c : String)
    (hwf : s.WF)
    (hsame : ∀ b ∈ s.elems, (s.heap b).id = blockId → (s.heap b).content = c) :
    (handleContentChange s blockId c).heap = s.heap ∧
    (handleContentChange s blockId c).elems = s.elems ∧
    (handleContentChange s blockId c).arrAddr ≠ s.arrAddr ∧
    (handleContentChange s blockId c).publishCount = s.publishCount + 1 := by
  refine ⟨funext fun b => ?_, rfl, ?_, rfl⟩
  · by_cases h : b ∈ s.elems ∧ (s.heap b).id = blockId
    · have hc := hsame b h.1 h.2
      simp only [handleContentChange, if_pos h]
      rw [← hc]
    · simp [handleContentChange, h]
  · have h2 := hwf.2
    simp only [handleContentChange]
    omega

/-- Witness for C2's amended statement at the concrete no-op input. -/
theorem c2_witness :
    (handleContentChange wState1 "a" "Hello").heap = wState1.heap ∧
    (handleContentChange wState1 "a" "Hello").publishCount
      = wState1.publishCount + 1 :=
  ⟨(c2_amended_noop_content wState1 "a" "Hello" (by decide) (by decide)).1,
   (c2_amended_noop_content wState1 "a" "Hello" (by decide) (by decide)).2.2.2⟩

/-- Shared: `handleEnterPress` always grows the collection by exactly one. -/
theorem length_handleEnterPress (s : EditorState) (X newId : String) :
    (handleEnterPress s X newId).elems.length = s.elems.length + 1 := by
  simp only [handleEnterPress, List.length_append, List.length_take,
    List.length_drop, List.length_cons]
  omega

/-- C3 counterexample: on the two-block state `["a", "b"]`, inserting after
the absent id `"zz"` places the new block at the **front** of the collection
(`findIndex` returns `-1`, so both slice bounds are `0`), not at the end as
the claim states. -/
theorem c3_counterexample :
    ids (handleEnterPress wState2 "zz" "new") ≠ ids wState2 ++ ["new"] := by
  decide

/-- C3 amended: `insertAfter(X)` grows the collection from length N to N+1;
the new record has empty content, type `paragraph`, and the generated id
(distinct from every existing id whenever the generator does not collide,
which is the hypothesis `hfresh`); it sits immediately after the first block
with id X when X is present, and at the **beginning** of the collection when
no block has id X. -/
theorem c3_amended_insertion (s : EditorState) (X newId : String)
    (hwf : s.WF) (hfresh : newId ∉ ids s) :
    (handleEnterPress s X newId).elems.length = s.elems.length + 1 ∧
    (handleEnterPress s X newId).heap s.nextAddr = ⟨newId, "", "paragraph"⟩ ∧
    (ids (handleEnterPress s X newId)).count newId = 1 ∧
    ids (handleEnterPress s X newId) =
      (match (ids s).findIdx? (fun i => i == X) with
       | some j => (ids s).take (j + 1) ++ newId :: (ids s).drop (j + 1)
       | none => newId :: ids s) := by
  have hne : ∀ b ∈ s.elems, b ≠ s.nextAddr := fun b hb => Nat.ne_of_lt (hwf.1 b hb)
  have hfi : (ids s).findIdx? (fun i => i == X)
      = s.elems.findIdx? (fun b => (s.heap b).id == X) := by
    simp [ids, List.findIdx?_map, Function.comp_def]
  have hids : ids (handleEnterPress s X newId) =
      (match (ids s).findIdx? (fun i => i == X) with
       | some j => (ids s).take (j + 1) ++ newId :: (ids s).drop (j + 1)
       | none => newId :: ids s) := by
    have htake : ∀ cut : Nat,
        (s.elems.take cut).map
            (fun b => ((handleEnterPress s X newId).heap b).id)
          = (ids s).take cut := by
      intro cut
      rw [show (s.elems.take cut).map
            (fun b => ((handleEnterPress s X newId).heap b).id)
          = (s.elems.take cut).map (fun b => (s.heap b).id) from
        List.map_congr_left fun b hb => by
          have hb' : b ∈ s.elems := (List.take_sublist cut s.elems).mem hb
          simp [handleEnterPress, hne b hb']]
      exact List.map_take _ _ _
    have hdrop : ∀ cut : Nat,
        (s.elems.drop cut).map
            (fun b => ((handleEnterPress s X newId).heap b).id)
          = (ids s).drop cut := by
      intro cut
      rw [show (s.elems.drop cut).map
            (fun b => ((handleEnterPress s X newId).heap b).id)
          = (s.elems.drop cut).map (fun b => (s.heap b).id) from
        List.map_congr_left fun b hb => by
          have hb' : b ∈ s.elems := (List.drop_sublist cut s.elems).mem hb
          simp [handleEnterPress, hne b hb']]
      exact List.map_drop _ _ _
    have hnew : (handleEnterPress s X newId).heap s.nextAddr
        = ⟨newId, "", "paragraph"⟩ := by
      simp [handleEnterPress]
    have hcut : ∀ cut : Nat,
        (handleEnterPress s X newId).elems
            = s.elems.take cut ++ s.nextAddr :: s.elems.drop cut →
        ids (handleEnterPress s X newId)
            = (ids s).take cut ++ newId :: (ids s).drop cut := by
      intro cut hE
      show (handleEnterPress s X newId).elems.map
          (fun b => ((handleEnterPress s X newId).heap b).id) = _
      rw [hE, List.map_append, List.map_cons, htake cut, hdrop cut, hnew]
    rw [hfi]
    cases hcase : s.elems.findIdx? (fun b => (s.heap b).id == X) with
    | none =>
        have hE : (handleEnterPress s X newId).elems
            = s.elems.take 0 ++ s.nextAddr :: s.elems.drop 0 := by
          simp only [handleEnterPress, findIndexJS, hcase]
          rfl
        rw [hcut 0 hE]
        simp
    | some j =>
        have hE : (handleEnterPress s X newId).elems
            = s.elems.take (j + 1) ++ s.nextAddr :: s.elems.drop (j + 1) := by
          simp only [handleEnterPress, findIndexJS, hcase]
          rw [show ((j : Int) + 1).toNat = j + 1 from rfl]
        exact hcut (j + 1) hE
  refine ⟨length_handleEnterPress s X newId, by simp [handleEnterPress], ?_, hids⟩
  · have h0 : (ids s).count newId = 0 := List.count_eq_zero.mpr hfresh
    rw [hids]
    cases (ids s).findIdx? (fun i => i == X) with
    | none => simp [List.count_cons_self, h0]
    | some j =>
        have hsplit : ((ids s).take (j + 1)).count newId
            + ((ids s).drop (j + 1)).count newId = 0 := by
          rw [← List.count_append, List.take_append_drop]
          exact h0
        simp only [List.count_append, List.count_cons_self]
        omega

/-- Witness for C3's amended statement: inserting after `"a"` in `["a", "b"]`
yields three blocks. -/
theorem c3_witness :
    (handleEnterPress wState2 "a" "n").elems.length = wState2.elems.length + 1 :=
  (c3_amended_insertion wState2 "a" "n" (by decide) (by decide)).1

/-- Shared: the ids of the collection after a delete are the ids of the
previous collection filtered by the target id (when more than one block is
present). -/
theorem ids_handleDeleteBlock (s : EditorState) (blockId : String)
    (hlen : 1 < s.elems.length) :
    ids (handleDeleteBlock s blockId) = (ids s).filter (fun i => i != blockId) := by
  have hif : ¬ s.elems.length ≤ 1 := by omega
  show ids (handleDeleteBlock s blockId)
      = (s.elems.map (fun b => (s.heap b).id)).filter (fun i => i != blockId)
  rw [List.filter_map]
  show (handleDeleteBlock s blockId).elems.map
      (fun b => ((handleDeleteBlock s blockId).heap b).id) = _
  simp only [handleDeleteBlock, if_neg hif]
  rfl

/-- C4: `remove` on a singleton collection is a complete no-op (the same
state, hence the same array and no publish); on a collection of more than one
block with pairwise-distinct ids containing the target, it removes exactly
the target (length drops by one, the target id is gone, every other block
stays); consequently a nonempty collection with distinct ids never becomes
empty. -/
theorem c4_deletion_floor (s : EditorState) (blockId : String) :
    (s.elems.length = 1 → handleDeleteBlock s blockId = s) ∧
    (1 < s.elems.length → (ids s).Nodup → blockId ∈ ids s →
      (handleDeleteBlock s blockId).elems.length = s.elems.length - 1 ∧
      blockId ∉ ids (handleDeleteBlock s blockId) ∧
      ∀ b ∈ s.elems, (s.heap b).id ≠ blockId →
        b ∈ (handleDeleteBlock s blockId).elems) ∧
    (1 ≤ s.elems.length → (ids s).Nodup →
      1 ≤ (handleDeleteBlock s blockId).elems.length) := by
  refine ⟨fun h1 => ?_, fun hlen hnodup hmem => ?_, fun hpos hnodup => ?_⟩
  · simp [handleDeleteBlock, h1]
  · have hif : ¬ s.elems.length ≤ 1 := by omega
    have hids := ids_handleDeleteBlock s blockId hlen
    have hlenids : (ids (handleDeleteBlock s blockId)).length
        = (ids s).length - 1 := by
      rw [hids, ← hnodup.erase_eq_filter blockId]
      have := List.length_erase_add_one (l := ids s) (a := blockId) hmem
      omega
    refine ⟨?_, ?_, ?_⟩
    · have h₁ : (ids (handleDeleteBlock s blockId)).length
          = (handleDeleteBlock s blockId).elems.length := List.length_map _ _
      have h₂ : (ids s).length = s.elems.length := List.length_map _ _
      omega
    · rw [hids]
      intro hcontra
      have := (List.mem_filter.mp hcontra).2
      simp at this
    · intro b hb hne
      simp only [handleDeleteBlock, if_neg hif]
      exact List.mem_filter.mpr ⟨hb, by simp [hne]⟩
  · by_cases hle : s.elems.length ≤ 1
    · simp [handleDeleteBlock, hle]
      omega
    · have hlen : 1 < s.elems.length := by omega
      by_cases hmem : blockId ∈ ids s
      · have h₁ : (ids (handleDeleteBlock s blockId)).length
            = (handleDeleteBlock s blockId).elems.length := List.length_map _ _
        have h₂ : (ids s).length = s.elems.length := List.length_map _ _
        have hids := ids_handleDeleteBlock s blockId hlen
        have hlenids : (ids (handleDeleteBlock s blockId)).length
            = (ids s).length - 1 := by
          rw [hids, ← hnodup.erase_eq_filter blockId]
          have := List.length_erase_add_one (l := ids s) (a := blockId) hmem
          omega
        omega
      · have hself : (ids s).filter (fun i => i != blockId) = ids s :=
          List.filter_eq_self.mpr fun a ha => by
            simp only [bne_iff_ne, ne_eq, decide_eq_true_eq]
            exact fun h => hmem (h ▸ ha)
        have h₁ : (ids (handleDeleteBlock s blockId)).length
            = (handleDeleteBlock s blockId).elems.length := List.length_map _ _
        have h₂ : (ids s).length = s.elems.length := List.length_map _ _
        have hsame := ids_handleDeleteBlock s blockId hlen
        rw [hself] at hsame
        have hlensame := congrArg List.length hsame
        omega

/-- Witness for C4: deleting `"b"` from the two-block collection leaves one
block. -/
theorem c4_witness : (handleDeleteBlock wState2 "b").elems.length = 1 :=
  ((c4_deletion_floor wState2 "b").2.1 (by decide) (by decide) (by decide)).1

/-- C6 counterexample: `setContent` targeting the absent id `"zz"` on the
two-block state does **not** leave the state as it was: a publish notification
is delivered (the `map` updater returns a fresh array, so the effect fires). -/
theorem c6_counterexample :
    (handleContentChange wState2 "zz" "x").publishCount
      ≠ wState2.publishCount := by
  decide

/-- C6 amended: an operation targeting an absent block id never mutates a
record and never raises an error — `setContent` keeps the heap and the element
list unchanged, `remove` keeps them unchanged too — but except for `remove` on
a collection of at most one block (which returns the very same array, so no
publish), a fresh array is allocated and a publish notification with
content-identical blocks is delivered to the host. -/
theorem c6_amended_absent_noop (s : EditorState) (blockId c : String)
    (hwf : s.WF) (habs : blockId ∉ ids s) :
    (handleContentChange s blockId c).heap = s.heap ∧
    (handleContentChange s blockId c).elems = s.elems ∧
    (handleContentChange s blockId c).arrAddr ≠ s.arrAddr ∧
    (handleContentChange s blockId c).publishCount = s.publishCount + 1 ∧
    (handleDeleteBlock s blockId).elems = s.elems ∧
    (handleDeleteBlock s blockId).heap = s.heap ∧
    (1 < s.elems.length →
      (handleDeleteBlock s blockId).publishCount = s.publishCount + 1) ∧
    (s.elems.length ≤ 1 → handleDeleteBlock s blockId = s) := by
  have hnotid : ∀ b ∈ s.elems, (s.heap b).id ≠ blockId := by
    intro b hb h
    exact habs (h ▸ List.mem_map_of_mem (fun b => (s.heap b).id) hb)
  refine ⟨funext fun b => ?_, rfl, ?_, rfl, ?_, ?_, fun hlen => ?_, fun hle => ?_⟩
  · have h : ¬ (b ∈ s.elems ∧ (s.heap b).id = blockId) := by
      rintro ⟨hb, hid⟩
      exact hnotid b hb hid
    simp [handleContentChange, h]
  · have h2 := hwf.2
    simp only [handleContentChange]
    omega
  · by_cases hle : s.elems.length ≤ 1
    · simp [handleDeleteBlock, hle]
    · simp only [handleDeleteBlock, if_neg hle]
      exact List.filter_eq_self.mpr fun b hb => by
        simp only [bne_iff_ne, ne_eq, decide_eq_true_eq]
        exact hnotid b hb
  · by_cases hle : s.elems.length ≤ 1 <;> simp [handleDeleteBlock, hle]
  · have hle : ¬ s.elems.length ≤ 1 := by omega
    simp [handleDeleteBlock, hle]
  · simp [handleDeleteBlock, hle]

/-- Witness for C6's amended statement at the concrete absent-id input. -/
theorem c6_witness :
    (handleContentChange wState2 "zz" "x").heap = wState2.heap ∧
    (handleContentChange wState2 "zz" "x").publishCount
      = wState2.publishCount + 1 :=
  ⟨(c6_amended_absent_noop wState2 "zz" "x" (by decide) (by decide)).1,
   (c6_amended_absent_noop wState2 "zz" "x" (by decide) (by decide)).2.2.2.1⟩

/-- C7: `changeType` updates only the `type` field of the targeted block —
its content string and id are identical before and after the call — and every
block whose id differs is untouched; the element list (hence every record
reference) is unchanged.  Settled against the spec-modelled `changeType`
(the repository has no controller implementation, only the `onTypeChange`
callback declaration). -/
theorem c7_type_change_retention (s : EditorState) (blockId newType : String)
    (a : Nat) (ha : a ∈ s.elems) (hid : (s.heap a).id = blockId) :
    ((changeType s blockId newType).heap a).content = (s.heap a).content ∧
    ((changeType s blockId newType).heap a).id = (s.heap a).id ∧
    ((changeType s blockId newType).heap a).type = newType ∧
    (changeType s blockId newType).elems = s.elems ∧
    ∀ b ∈ s.elems, (s.heap b).id ≠ blockId →
      (changeType s blockId newType).heap b = s.heap b := by
  refine ⟨?_, ?_, ?_, rfl, ?_⟩
  · simp [changeType, ha, hid]
  · simp [changeType, ha, hid]
  · simp [changeType, ha, hid]
  · intro b hb hne
    simp [changeType, hne]

/-- Witness for C7 at a concrete one-block state: changing `"a"` to `h1`
keeps its content and id. -/
theorem c7_witness :
    ((changeType wState1 "a" "h1").heap 0).content = (wState1.heap 0).content ∧
    ((changeType wState1 "a" "h1").heap 0).type = "h1" :=
  ⟨(c7_type_change_retention wState1 "a" "h1" 0 (by decide) (by decide)).1,
   (c7_type_change_retention wState1 "a" "h1" 0 (by decide) (by decide)).2.2.1⟩

/-- C10: the at-least-one-block invariant is enforced only by the delete
handler, not at initialization — a host-supplied empty `initialBlocks` list
yields a collection with zero blocks, `setContent` and `remove` keep that
state empty, and among the three collection operations only `insertAfter`
increases the length. -/
theorem c10_no_floor_at_init :
    (initEditor []).elems = [] ∧
    (∀ bid c, (handleContentChange (initEditor []) bid c).elems = []) ∧
    (∀ bid, handleDeleteBlock (initEditor []) bid = initEditor []) ∧
    (∀ s : EditorState, ∀ bid c,
      (handleContentChange s bid c).elems = s.elems) ∧
    (∀ s : EditorState, ∀ bid,
      (handleDeleteBlock s bid).elems.length ≤ s.elems.length) ∧
    (∀ s : EditorState, ∀ bid nid,
      (handleEnterPress s bid nid).elems.length = s.elems.length + 1) := by
  refine ⟨by simp [initEditor], fun bid c => by simp [handleContentChange, initEditor],
    fun bid => by simp [handleDeleteBlock, initEditor], fun s bid c => rfl,
    fun s bid => ?_, fun s bid nid => length_handleEnterPress s bid nid⟩
  by_cases hle : s.elems.length ≤ 1
  · simp [handleDeleteBlock, hle]
  · simp only [handleDeleteBlock, if_neg hle]
    exact List.length_filter_le _ _

/-- C8: resolving a block type through the registry is total — a type string
with no registry entry resolves to the paragraph entry, and a registered type
resolves to its registered entry. -/
theorem c8_registry_total (t : String) :
    (blockRegistry t = none → BlockFactoryComponent t = paragraphItem) ∧
    (∀ item, blockRegistry t = some item → BlockFactoryComponent t = item) := by
  constructor
  · intro h
    simp [BlockFactoryComponent, h]
  · intro item h
    simp [BlockFactoryComponent, h]

/-- Witness for C8: an unregistered tag falls back to the paragraph variant,
and the registered tag `h2` resolves to its own entry. -/
theorem c8_witness :
    BlockFactoryComponent "mystery" = paragraphItem ∧
    BlockFactoryComponent "h2" = ⟨"H2Block", "标题 2", ""⟩ :=
  ⟨(c8_registry_total "mystery").1 rfl, (c8_registry_total "h2").2 _ rfl⟩

/-- A coordinator armed for `"y"` whose view never registered. -/
def wFocus1 : FocusState :=
  { newItemId := "y", refs := [], focusCalls := [], effectPending := false }

/-- C5: from an idle coordinator, arming for a fresh id Y followed by the
mount of Y's view and the effect flush calls `focus()` on Y exactly once; a
subsequent mount notification (for any id Z) followed by another flush does
not invoke `focus()` for Y again, because a ref-map write triggers no render
and the pending id was cleared. -/
theorem c5_focus_once (s : FocusState) (Y Z : String)
    (hidle : s.newItemId = "") (hY : Y ≠ "") :
    (focusRun s [.arm Y, .mount Y, .flush]).focusCalls.count Y
      = s.focusCalls.count Y + 1 ∧
    (focusRun s [.arm Y, .mount Y, .flush, .mount Z, .flush]).focusCalls.count Y
      = s.focusCalls.count Y + 1 := by
  have harm : ¬ Y = s.newItemId := by rw [hidle]; exact hY
  constructor
  · simp [focusRun, focusStep, runFocusEffect, harm, hY, List.count_append]
  · simp [focusRun, focusStep, runFocusEffect, harm, hY, List.count_append]

/-- Witness for C5 at the concrete idle coordinator. -/
theorem c5_witness :
    (focusRun wFocus0 [.arm "y", .mount "y", .flush]).focusCalls.count "y"
      = wFocus0.focusCalls.count "y" + 1 :=
  (c5_focus_once wFocus0 "y" "z" (by decide) (by decide)).1

/-- C9: when the coordinator is armed for Y but no handle is registered under
Y at the moment its effect runs, the pending id Y stays stored and the effect
stays quiescent; a later arm request for the same Y is an `Object.is` bail-out
that changes nothing, so even if Y's view registers afterwards `focus()` is
never invoked for Y; only an arm request for a different id sets the effect
pending again. -/
theorem c9_missed_mount_never_focuses (s : FocusState) (Y W : String)
    (harm : s.newItemId = Y) (hY : Y ≠ "") (hnot : Y ∉ s.refs) :
    (focusRun s [.flush]).newItemId = Y ∧
    (focusRun s [.flush]).focusCalls = s.focusCalls ∧
    focusRun s [.flush, .arm Y] = focusRun s [.flush] ∧
    (focusRun s [.flush, .arm Y, .mount Y, .flush]).focusCalls.count Y
      = s.focusCalls.count Y ∧
    (W ≠ Y → (focusRun s [.flush, .arm W]).effectPending = true) := by
  obtain ⟨n, r, fc, p⟩ := s
  have harm' : n = Y := harm
  subst harm'
  have hnot' : n ∉ r := hnot
  have hguard : ¬ (n ≠ "" ∧ n ∈ r) := fun h => hnot' h.2
  refine ⟨?_, ?_, ?_, ?_, fun hW => ?_⟩
  · cases p <;> simp [focusRun, focusStep, runFocusEffect, hguard]
  · cases p <;> simp [focusRun, focusStep, runFocusEffect, hguard]
  · cases p <;> simp [focusRun, focusStep, runFocusEffect, hguard]
  · cases p <;> simp [focusRun, focusStep, runFocusEffect, hguard]
  · cases p <;> simp [focusRun, focusStep, runFocusEffect, hguard, hW]

/-- Witness for C9 at the concrete armed-but-unmounted coordinator: `focus()`
is never invoked for `"y"` even after its view registers. -/
theorem c9_witness :
    (focusRun wFocus1 [.flush, .arm "y", .mount "y", .flush]).focusCalls.count "y"
      = wFocus1.focusCalls.count "y" :=
  (c9_missed_mount_never_focuses wFocus1 "y" "w" (by decide) (by decide)
    (by decide)).2.2.2.1

end Reditor
